import Mathlib

/-!
A verification development for the snapenv library (`src/index.ts`): a
schema-directed validator for environment-variable-style string mappings.
The definitions below are a shallow embedding of the TypeScript source.
Strings are Lean `String`s; JavaScript `undefined` is `Option.none`;
JavaScript numbers are modelled as exact rationals saturated to the
signed infinities at the float64 overflow threshold 2^1024 - 2^970
(mantissa rounding and gradual underflow of in-range values are not
modelled; they affect neither acceptance nor finiteness, which is all
any claim observes); the host runtime's `new URL` and `JSON.parse`
(external collaborators per the spec) are parameters of the embedding.
-/

namespace Snapenv

/-! ## Model of the JavaScript `Number(string)` conversion

`Number(s)` trims whitespace and parses the ECMAScript StringNumericLiteral
grammar: the empty string denotes `0`; an optionally signed decimal literal
(digits, optional fraction, optional exponent) or `Infinity`; or an unsigned
`0x`/`0o`/`0b` radix literal.  `none` models the `NaN` outcome. -/

/-- A JavaScript number that can result from `Number(string)` when the
result is not `NaN`: a finite value (modelled exactly as a rational) or a
signed infinity. -/
inductive JSNum where
  | fin (q : ℚ)
  | inf
  | negInf
deriving DecidableEq, Repr

/-- The whitespace code points the `Number` conversion trims: ECMAScript
WhiteSpace (tab, VT, FF, space, NBSP, BOM and the Unicode
space-separator category Zs) and LineTerminator (LF, CR, LS, PS). -/
def jsWsChars : List Char :=
  [' ', '\t', '\n', '\r', '\x0b', '\x0c', '\u00A0', '\uFEFF', '\u1680',
   '\u2000', '\u2001', '\u2002', '\u2003', '\u2004', '\u2005', '\u2006',
   '\u2007', '\u2008', '\u2009', '\u200A', '\u2028', '\u2029', '\u202F',
   '\u205F', '\u3000']

/-- Whitespace test for the `Number` conversion. -/
def isJsWs (c : Char) : Bool :=
  jsWsChars.contains c

/-- Splits a character list at the first character satisfying `p`: returns
the segment before it and, if a split character was found, the remainder
after it. -/
def splitAtFirstC (p : Char → Bool) : List Char → List Char × Option (List Char)
  | [] => ([], none)
  | c :: rest =>
    if p c then ([], some rest)
    else
      let r := splitAtFirstC p rest
      (c :: r.1, r.2)

/-- Strips one optional leading sign; returns whether it was `-` and the
remaining characters. -/
def stripSign (l : List Char) : Bool × List Char :=
  if l.head? = some '+' then (false, l.drop 1)
  else if l.head? = some '-' then (true, l.drop 1)
  else (false, l)

/-- Numeric value of a digit list in base 10 (digits are assumed valid). -/
def natOf (l : List Char) : Nat :=
  l.foldl (fun acc c => acc * 10 + (c.toNat - 48)) 0

/-- Value of a nonempty all-decimal-digit list; `none` otherwise. -/
def decDigits (l : List Char) : Option Nat :=
  if !l.isEmpty && l.all Char.isDigit then some (natOf l) else none

/-- Hexadecimal digit test. -/
def isHexDigit (c : Char) : Bool :=
  c.isDigit || ('a' ≤ c && c ≤ 'f') || ('A' ≤ c && c ≤ 'F')

/-- Value of one hexadecimal digit. -/
def hexVal (c : Char) : Nat :=
  if c.isDigit then c.toNat - 48
  else if 'a' ≤ c && c ≤ 'f' then c.toNat - 87
  else c.toNat - 55

/-- Value of a nonempty all-hex-digit list; `none` otherwise. -/
def hexDigitsVal (l : List Char) : Option Nat :=
  if !l.isEmpty && l.all isHexDigit then
    some (l.foldl (fun acc c => acc * 16 + hexVal c) 0)
  else none

/-- Value of a nonempty all-octal-digit list; `none` otherwise. -/
def octDigitsVal (l : List Char) : Option Nat :=
  if !l.isEmpty && l.all (fun c => '0' ≤ c && c ≤ '7') then
    some (l.foldl (fun acc c => acc * 8 + (c.toNat - 48)) 0)
  else none

/-- Value of a nonempty all-binary-digit list; `none` otherwise. -/
def binDigitsVal (l : List Char) : Option Nat :=
  if !l.isEmpty && l.all (fun c => c = '0' || c = '1') then
    some (l.foldl (fun acc c => acc * 2 + (c.toNat - 48)) 0)
  else none

/-- Parses an unsigned decimal literal with optional fraction and optional
exponent (`DecimalDigits [. DecimalDigits] [ExponentPart]` or
`. DecimalDigits [ExponentPart]`), returning its exact rational value. -/
def decLit (l : List Char) : Option ℚ :=
  let me := splitAtFirstC (fun c => c = 'e' || c = 'E') l
  let mantVal : Option ℚ :=
    let ipFp := splitAtFirstC (fun c => c = '.') me.1
    match ipFp.2 with
    | none => (decDigits ipFp.1).map (fun n => (n : ℚ))
    | some fp =>
      if ipFp.1.isEmpty && fp.isEmpty then none
      else if ipFp.1.all Char.isDigit && fp.all Char.isDigit then
        some ((natOf ipFp.1 : ℚ) + (natOf fp : ℚ) / (10 : ℚ) ^ fp.length)
      else none
  match mantVal, me.2 with
  | none, _ => none
  | some q, none => some q
  | some q, some ex =>
    let se := stripSign ex
    match decDigits se.2 with
    | none => none
    | some e => some (q * (10 : ℚ) ^ (if se.1 then -(e : ℤ) else (e : ℤ)))

/-- The float64 overflow threshold `2 ^ 1024 - 2 ^ 970`, inlined as a
numeral (see `f64Overflow_eq`) so that evaluating a comparison against it
computes no exponentiation or rational normalisation. -/
def f64Overflow : ℚ := (179769313486231580793728971405303415079934132710037826936173778980444968292764750946649017977587207096330286416692887910946555547851940402630657488671505820681908902000708383676273854845817711531764475730270069855571366959622842914819860834936475292719074168444365510704342711559699508093042880177904174497792 : Nat)

/-- The numeral in `f64Overflow` is the float64 overflow threshold. -/
theorem f64Overflow_eq : f64Overflow = 2 ^ 1024 - 2 ^ 970 := by
  norm_num [f64Overflow]

/-- Saturates an exact converted value to the float64 overflow behaviour
of `Number`: under round-to-nearest-even, exact magnitudes of at least
`2 ^ 1024 - 2 ^ 970` convert to the signed infinities.  Mantissa rounding
and gradual underflow of in-range values are not modelled: the value
stays exact and finite, as the claims only observe acceptance and
finiteness. -/
def saturate (q : ℚ) : JSNum :=
  if f64Overflow ≤ q then .inf
  else if q ≤ -f64Overflow then .negInf
  else .fin q

/-- Parses an optionally signed decimal literal or `Infinity`. -/
def decSigned (l : List Char) : Option JSNum :=
  let sb := stripSign l
  if sb.2 = "Infinity".toList then some (if sb.1 then .negInf else .inf)
  else (decLit sb.2).map (fun q => saturate (if sb.1 then -q else q))

/-- Trims JS whitespace from both ends of a string, as a character list. -/
def jsTrim (s : String) : List Char :=
  ((s.toList.dropWhile isJsWs).reverse.dropWhile isJsWs).reverse

/-- Model of the JavaScript `Number(string)` conversion; `none` is `NaN`. -/
def jsNumber (s : String) : Option JSNum :=
  let t := jsTrim s
  if t.isEmpty then some (.fin 0)
  else if t.take 2 = ['0', 'x'] || t.take 2 = ['0', 'X'] then
    (hexDigitsVal (t.drop 2)).map (fun n => saturate (n : ℚ))
  else if t.take 2 = ['0', 'o'] || t.take 2 = ['0', 'O'] then
    (octDigitsVal (t.drop 2)).map (fun n => saturate (n : ℚ))
  else if t.take 2 = ['0', 'b'] || t.take 2 = ['0', 'B'] then
    (binDigitsVal (t.drop 2)).map (fun n => saturate (n : ℚ))
  else decSigned t

/-- Model of `Number.isInteger` on a non-NaN JS number: finite with an
integral value. -/
def isIntegerJS : JSNum → Bool
  | .fin q => q.den = 1
  | _ => false

/-! ## String helpers and the source's regular expressions -/

/-- ASCII lowercasing, modelling `toLowerCase` / case-insensitive regex
flags on the ASCII inputs the library's patterns deal with. -/
def asciiLower (s : String) : String :=
  String.mk (s.toList.map Char.toLower)

/-- Substring test: `needle` occurs contiguously inside `hay`. -/
def containsSub (hay needle : String) : Bool :=
  let h := hay.toList
  (List.range (h.length + 1)).any (fun i => needle.toList.isPrefixOf (h.drop i))

/-- Lowercase ASCII letter test. -/
def isLowerAlpha (c : Char) : Bool := 'a' ≤ c && c ≤ 'z'

/-- The source's `patterns.email` regex `/^[^\s@]+@[^\s@]+\.[^\s@]+$/`:
a nonempty local part without whitespace or `@`, one `@`, and a domain part
without whitespace or `@` containing a `.` that is neither its first nor
its last character. -/
def emailOk (s : String) : Bool :=
  let cs := s.toList
  let localPart := cs.takeWhile (fun c => c ≠ '@')
  let ok (c : Char) : Bool := !c.isWhitespace && c ≠ '@'
  match cs.drop localPart.length with
  | '@' :: domain =>
    !localPart.isEmpty && localPart.all ok && domain.all ok &&
    ((domain.drop 1).dropLast.contains '.')
  | _ => false

/-- The source's `patterns.uuid` regex: canonical 8-4-4-4-12 hyphenated
hexadecimal groups, case-insensitive. -/
def uuidOk (s : String) : Bool :=
  match (s.split (fun c => c = '-')).map String.toList with
  | [a, b, c, d, e] =>
    a.length = 8 && b.length = 4 && c.length = 4 && d.length = 4 &&
    e.length = 12 && (a ++ b ++ c ++ d ++ e).all isHexDigit
  | _ => false

/-- One DNS label of the source's host regex: `[a-z0-9]([a-z0-9-]*[a-z0-9])?`
(on an already-lowercased string). -/
def labelOk (l : List Char) : Bool :=
  let alnum (c : Char) : Bool := isLowerAlpha c || c.isDigit
  match l with
  | [] => false
  | [c] => alnum c
  | c :: rest =>
    alnum c && (match rest.getLast? with
      | some d => alnum d
      | none => false) && rest.dropLast.all (fun x => alnum x || x = '-')

/-- The source's `patterns.host` regex (case-insensitive): dotted DNS-style
labels ending in an alphabetic TLD of length at least two, or `localhost`,
or four dot-separated groups of one to three digits. -/
def hostOk (s : String) : Bool :=
  let t := (asciiLower s).toList
  let parts := (String.mk t).split (fun c => c = '.') |>.map String.toList
  let dns :=
    match parts.getLast? with
    | some tld =>
      parts.length ≥ 2 && tld.length ≥ 2 && tld.all isLowerAlpha &&
      parts.dropLast.all labelOk
    | none => false
  let ipv4 :=
    parts.length = 4 &&
    parts.all (fun p => 1 ≤ p.length && p.length ≤ 3 && p.all Char.isDigit)
  t = "localhost".toList || dns || ipv4

/-- The source's `secretKeys` regex
`/secret|password|token|key|api|auth|credential|private/i`: a
case-insensitive unanchored search for any of the indicator words. -/
def secretMatch (k : String) : Bool :=
  let lk := asciiLower k
  ["secret", "password", "token", "key", "api", "auth", "credential",
   "private"].any (fun w => containsSub lk w)

/-- The source's `mask` function: quotes the value, replacing it with the
`[MASKED]` marker when masking is on and the key matches the secret
pattern. -/
def mask (value key : String) (shouldMask : Bool) : String :=
  if !shouldMask then "\"" ++ value ++ "\""
  else if secretMatch key then "\"[MASKED]\""
  else "\"" ++ value ++ "\""

/-! ## Data model -/

/-- A parsed JSON value (shape of what `JSON.parse` can return). -/
inductive JsonV where
  | null
  | bool (b : Bool)
  | num (q : ℚ)
  | str (s : String)
  | arr (l : List JsonV)
  | obj (l : List (String × JsonV))

/-- The host runtime primitives the library delegates to: `new URL(s)`
success (the `url` coercer) and `JSON.parse(s)` (the `json` coercer).
These are external collaborators of the library, not part of its source,
so the embedding is parameterised over them. -/
structure Platform where
  urlOk : String → Bool
  jsonParse : String → Option JsonV

/-- A coerced field value: JS `undefined`, a string, a number, a boolean,
a parsed JSON value, or an array of strings or numbers. -/
inductive Value where
  | undef
  | str (s : String)
  | num (n : JSNum)
  | bool (b : Bool)
  | jsonVal (j : JsonV)
  | strArr (l : List String)
  | numArr (l : List JSNum)

/-- The `{ value, error? }` record returned by the source's `parse`. -/
structure PR where
  value : Value
  error : Option String

/-- A custom validator capability: a `required` flag and a parse function
from optional raw value and key to a `PR` (the source's `Validator`). -/
structure Validator where
  required : Bool
  parse : Option String → String → PR

/-- A schema entry's type: a textual descriptor, an enum list of allowed
literals, or a custom validator (the source's `EnvType`). -/
inductive EnvType where
  | desc (t : String)
  | enum (allowed : List String)
  | custom (v : Validator)

/-- The structured descriptor produced by the source's `extractType`. -/
structure ExtractedType where
  base : String
  required : Bool
  defaultValue : Option String

/-- The source's `extractType`: split at the first `=` into a base segment
and a verbatim default literal (a descriptor with a default is always
`required`); a trailing `!` on the base segment marks required and is
stripped. -/
def extractType (t : String) : ExtractedType :=
  let cs := t.toList
  if cs.contains '=' then
    let beforeEq := cs.takeWhile (fun c => c ≠ '=')
    let d := cs.drop (beforeEq.length + 1)
    if beforeEq.getLast? = some '!' then
      ⟨String.mk beforeEq.dropLast, true, some (String.mk d)⟩
    else
      ⟨String.mk beforeEq, true, some (String.mk d)⟩
  else
    if cs.getLast? = some '!' then ⟨String.mk cs.dropLast, true, none⟩
    else ⟨String.mk cs, false, none⟩

/-- Comma-split with per-piece whitespace trim, as in the source's
`raw.split(",").map((s) => s.trim())`. -/
def splitTrim (raw : String) : List String :=
  (raw.split (fun c => c = ',')).map String.trim

/-- The case labels of the `switch (base)` in the source's `parse`
(`other` is the `default` case). -/
inductive BaseKind where
  | stringK
  | numberK
  | integerK
  | portK
  | booleanK
  | urlK
  | emailK
  | hostK
  | uuidK
  | jsonK
  | strArrK
  | numArrK
  | other
deriving DecidableEq, Repr

/-- Which `switch` case a base-kind string selects. -/
def baseKindOf (base : String) : BaseKind :=
  if base = "string" then .stringK
  else if base = "number" then .numberK
  else if base = "integer" then .integerK
  else if base = "port" then .portK
  else if base = "boolean" then .booleanK
  else if base = "url" then .urlK
  else if base = "email" then .emailK
  else if base = "host" then .hostK
  else if base = "uuid" then .uuidK
  else if base = "json" then .jsonK
  else if base = "string[]" then .strArrK
  else if base = "number[]" then .numArrK
  else .other

/-- The `switch (base)` of the source's `parse`: one coercion per base
kind, applied to a present raw value; unknown bases pass the raw string
through. -/
def coerceBase (pf : Platform) (base raw key : String) (m : Bool) : PR :=
  match baseKindOf base with
  | .stringK => ⟨.str raw, none⟩
  | .numberK =>
    match jsNumber raw with
    | none => ⟨.undef, some ("must be a number, got " ++ mask raw key m)⟩
    | some n => ⟨.num n, none⟩
  | .integerK =>
    match jsNumber raw with
    | none => ⟨.undef, some ("must be an integer, got " ++ mask raw key m)⟩
    | some n =>
      if isIntegerJS n then ⟨.num n, none⟩
      else ⟨.undef, some ("must be an integer, got " ++ mask raw key m)⟩
  | .portK =>
    match jsNumber raw with
    | none => ⟨.undef, some ("must be a valid port (1-65535), got " ++ mask raw key m)⟩
    | some n =>
      match n with
      | .fin q =>
        if q.den = 1 && 1 ≤ q && q ≤ 65535 then ⟨.num n, none⟩
        else ⟨.undef, some ("must be a valid port (1-65535), got " ++ mask raw key m)⟩
      | _ => ⟨.undef, some ("must be a valid port (1-65535), got " ++ mask raw key m)⟩
  | .booleanK =>
    if ["true", "1", "yes", "on"].contains (asciiLower raw) then ⟨.bool true, none⟩
    else if ["false", "0", "no", "off"].contains (asciiLower raw) then ⟨.bool false, none⟩
    else ⟨.undef, some ("must be a boolean, got " ++ mask raw key m)⟩
  | .urlK =>
    if pf.urlOk raw then ⟨.str raw, none⟩
    else ⟨.undef, some ("must be a valid URL, got " ++ mask raw key m)⟩
  | .emailK =>
    if emailOk raw then ⟨.str raw, none⟩
    else ⟨.undef, some ("must be a valid email, got " ++ mask raw key m)⟩
  | .hostK =>
    if hostOk raw then ⟨.str raw, none⟩
    else ⟨.undef, some ("must be a valid host, got " ++ mask raw key m)⟩
  | .uuidK =>
    if uuidOk raw then ⟨.str raw, none⟩
    else ⟨.undef, some ("must be a valid UUID, got " ++ mask raw key m)⟩
  | .jsonK =>
    match pf.jsonParse raw with
    | some j => ⟨.jsonVal j, none⟩
    | none => ⟨.undef, some ("must be valid JSON, got " ++ mask raw key m)⟩
  | .strArrK => ⟨.strArr (splitTrim raw), none⟩
  | .numArrK =>
    if (splitTrim raw).all (fun it => (jsNumber it).isSome) then
      ⟨.numArr ((splitTrim raw).filterMap jsNumber), none⟩
    else ⟨.undef, some ("must be comma-separated numbers, got " ++ mask raw key m)⟩
  | .other => ⟨.str raw, none⟩

/-- The textual-descriptor branch of the source's `parse`: substitute the
default for an absent (or conditionally empty) value, then re-check
absence (required gives an error, optional gives `undefined`), then
dispatch to the base-kind coercion. -/
def parseDesc (pf : Platform) (value : Option String) (t key : String)
    (e m : Bool) : PR :=
  let ex := extractType t
  let raw : Option String :=
    match value, ex.defaultValue with
    | none, some d => some d
    | some s, some d => if e && s = "" then some d else some s
    | v, none => v
  match raw with
  | none =>
    if ex.required then ⟨.undef, some "required but not set"⟩
    else ⟨.undef, none⟩
  | some s =>
    if e && s = "" then
      if ex.required then ⟨.undef, some "required but not set"⟩
      else ⟨.undef, none⟩
    else coerceBase pf ex.base s key m

/-- The source's `parse`: dispatch to a custom validator, the enum
matcher, or the textual-descriptor logic. -/
def parse (pf : Platform) (value : Option String) (type : EnvType)
    (key : String) (e m : Bool) : PR :=
  match type with
  | .custom v => v.parse value key
  | .enum allowed =>
    let absentErr : PR :=
      ⟨.undef, some ("required, must be one of: " ++ String.intercalate ", " allowed)⟩
    match value with
    | none => absentErr
    | some s =>
      if e && s = "" then absentErr
      else if allowed.contains s then ⟨.str s, none⟩
      else ⟨.undef, some ("must be one of: " ++ String.intercalate ", " allowed ++
                          ", got " ++ mask s key m)⟩
  | .desc t => parseDesc pf value t key e m

/-- The source's `makeValidator`: wraps a caller-supplied coercion
function (`Except.error` models a thrown failure) with central handling of
`undefined` and the empty string, an explicit `required` flag, and an
optional fixed error-message override. -/
def makeValidator (fn : String → Except String Value) (required : Bool)
    (errOverride : Option String) : Validator :=
  { required := required
    parse := fun value _key =>
      match value with
      | none =>
        if required then ⟨.undef, some "required but not set"⟩ else ⟨.undef, none⟩
      | some s =>
        if s = "" then
          if required then ⟨.undef, some "required but not set"⟩ else ⟨.undef, none⟩
        else
          match fn s with
          | .ok v => ⟨v, none⟩
          | .error msg => ⟨.undef, some (errOverride.getD msg)⟩ }

/-- The source's `regex` helper: a `makeValidator` whose function fails
(with the override or a fixed pattern message) unless the supplied
pattern test accepts the raw string, which is then passed through. -/
def regexValidator (test : String → Bool) (patStr : String)
    (required : Bool) (errOverride : Option String) : Validator :=
  makeValidator
    (fun v =>
      if test v then .ok (.str v)
      else .error (errOverride.getD ("must match pattern " ++ patStr)))
    required errOverride

/-! ## Validation aggregator

The source's `snap` iterates the schema (an insertion-ordered object,
modelled as an association list with the field names as written — the
library's field names are environment-variable identifiers, never the
integer-like property keys JavaScript would reorder), collects errors and
successful values, then dispatches the error policy.  A `source` lookup is
a function `String → Option String`; the ambient `process.env` fallback is
an external collaborator and is simply one such function. -/

/-- The three `onError` policies of the source's `Options`. -/
inductive ErrPolicy where
  | throwPol
  | logPol
  | cbPol
deriving DecidableEq, Repr

/-- The single external effect of one `snap` call: none, a raised
aggregated failure, a message written to the diagnostic sink, or one
callback invocation carrying the error list.  A `thrown` effect means
the JavaScript function raises instead of returning. -/
inductive SnapEffect where
  | noEffect
  | thrown (msg : String)
  | logged (msg : String)
  | callbacked (errs : List String)

/-- The resolved options of one `snap` call (after the source's `??`
defaulting; the raw-source option is passed separately). -/
structure SnapOpts where
  pfx : String
  onError : ErrPolicy
  emptyAsUndefined : Bool
  maskSecrets : Bool

/-- JavaScript truthiness of the `error` field (`if (error)`): present and
not the empty string. -/
def errTruthy : Option String → Bool
  | none => false
  | some s => s ≠ ""

/-- The per-field loop of the source's `snap`: walk the schema in order,
pushing `"<prefixed key>: <error>"` onto the error list for a truthy
error, and `(field name, value)` onto the result map otherwise. -/
def snapFields (pf : Platform) (schema : List (String × EnvType))
    (source : String → Option String) (pfx : String) (e m : Bool) :
    List (String × Value) × List String :=
  match schema with
  | [] => ([], [])
  | (k, t) :: rest =>
    let pr := parse pf (source (pfx ++ k)) t k e m
    let acc := snapFields pf rest source pfx e m
    match pr.error with
    | some err =>
      if err ≠ "" then (acc.1, (pfx ++ k ++ ": " ++ err) :: acc.2)
      else ((k, pr.value) :: acc.1, acc.2)
    | none => ((k, pr.value) :: acc.1, acc.2)

/-- The aggregated failure message of the source's `snap`. -/
def aggMessage (errors : List String) : String :=
  "snapenv validation failed:\n  " ++ String.intercalate "\n  " errors

/-- What one `snap` call produces: the (to-be-frozen) result map, the
collected error list, and the dispatched external effect. -/
structure SnapResult where
  result : List (String × Value)
  errors : List String
  effect : SnapEffect

/-- The source's `snap`: run the field loop, then dispatch the error
policy when the error list is nonempty (`"log"` writes the aggregated
message, a callback receives the raw list, the default raises). -/
def snapRun (pf : Platform) (schema : List (String × EnvType))
    (source : String → Option String) (o : SnapOpts) : SnapResult :=
  let rs := snapFields pf schema source o.pfx o.emptyAsUndefined o.maskSecrets
  let effect :=
    if rs.2.isEmpty then SnapEffect.noEffect
    else
      match o.onError with
      | .logPol => SnapEffect.logged (aggMessage rs.2)
      | .cbPol => SnapEffect.callbacked rs.2
      | .throwPol => SnapEffect.thrown (aggMessage rs.2)
  ⟨rs.1, rs.2, effect⟩

/-- The tagged union returned by the source's `validate`. -/
inductive ValidateResult where
  | success (data : List (String × Value))
  | failure (errors : List String)

/-- The source's `validate`: run `snap` with a callback `onError` that
collects the errors, then return the failure variant when any were
collected and the success variant otherwise. -/
def validateRun (pf : Platform) (schema : List (String × EnvType))
    (source : String → Option String) (pfx : String) (e m : Bool) :
    ValidateResult :=
  let s := snapRun pf schema source ⟨pfx, .cbPol, e, m⟩
  let errs :=
    match s.effect with
    | .callbacked es => es
    | _ => []
  if errs.isEmpty then .success s.result else .failure errs

/-! ## Helper views of the field loop -/

/-- The error entry (if any) one schema field contributes: the parse
error, when truthy, rendered with the prefixed key. -/
def fieldError (pf : Platform) (source : String → Option String)
    (pfx : String) (e m : Bool) (kt : String × EnvType) : Option String :=
  let pr := parse pf (source (pfx ++ kt.1)) kt.2 kt.1 e m
  match pr.error with
  | some err => if err ≠ "" then some (pfx ++ kt.1 ++ ": " ++ err) else none
  | none => none

/-- The result-map entry (if any) one schema field contributes: its name
and coerced value, when the parse error is not truthy. -/
def fieldValue (pf : Platform) (source : String → Option String)
    (pfx : String) (e m : Bool) (kt : String × EnvType) :
    Option (String × Value) :=
  let pr := parse pf (source (pfx ++ kt.1)) kt.2 kt.1 e m
  match pr.error with
  | some err => if err ≠ "" then none else some (kt.1, pr.value)
  | none => some (kt.1, pr.value)

/-- A concrete platform instance for evaluating examples that use no
`url` or `json` fields. -/
def plainPlatform : Platform := ⟨fun _ => false, fun _ => none⟩

/-! ## Recognisers for the numeric-string grammar (claim C4) -/

/-- Recogniser for the unsigned decimal literal grammar accepted by
`decLit`: a digit/fraction mantissa with at least one digit, and an
optional well-formed exponent part. -/
def decBodyOk (l : List Char) : Bool :=
  let me := splitAtFirstC (fun c => c = 'e' || c = 'E') l
  let mOk :=
    let ipFp := splitAtFirstC (fun c => c = '.') me.1
    match ipFp.2 with
    | none => !ipFp.1.isEmpty && ipFp.1.all Char.isDigit
    | some fp =>
      (!ipFp.1.isEmpty || !fp.isEmpty) && ipFp.1.all Char.isDigit &&
        fp.all Char.isDigit
  let eOk :=
    match me.2 with
    | none => true
    | some ex =>
      let se := stripSign ex
      !se.2.isEmpty && se.2.all Char.isDigit
  mOk && eOk

/-- Recogniser for an optionally signed decimal literal or `Infinity`. -/
def decSignedOk (l : List Char) : Bool :=
  let sb := stripSign l
  sb.2 = "Infinity".toList || decBodyOk sb.2

/-- Recogniser for the full numeric-string grammar accepted by the
`Number` conversion: whitespace-trimmed empty string, unsigned radix
literal, or signed decimal literal or `Infinity`. -/
def jsNumericAccept (s : String) : Bool :=
  let t := jsTrim s
  if t.isEmpty then true
  else if t.take 2 = ['0', 'x'] || t.take 2 = ['0', 'X'] then
    !(t.drop 2).isEmpty && (t.drop 2).all isHexDigit
  else if t.take 2 = ['0', 'o'] || t.take 2 = ['0', 'O'] then
    !(t.drop 2).isEmpty && (t.drop 2).all (fun x => '0' ≤ x && x ≤ '7')
  else if t.take 2 = ['0', 'b'] || t.take 2 = ['0', 'B'] then
    !(t.drop 2).isEmpty && (t.drop 2).all (fun x => x = '0' || x = '1')
  else decSignedOk t

/-- Modelled from the spec: claim C4's acceptance set, "a finite numeric
literal (integer or decimal, optional leading `-`)" — an optional minus
sign, then decimal digits with an optional nonempty fractional part. -/
def simpleNumericLit (s : String) : Bool :=
  let body :=
    if s.toList.head? = some '-' then s.toList.drop 1 else s.toList
  let ipFp := splitAtFirstC (fun c => c = '.') body
  match ipFp.2 with
  | none => !ipFp.1.isEmpty && ipFp.1.all Char.isDigit
  | some fp =>
    !ipFp.1.isEmpty && ipFp.1.all Char.isDigit &&
      !fp.isEmpty && fp.all Char.isDigit

/-! ## General helper lemmas -/

/-- Two strings differ when their first characters differ. -/
theorem ne_of_head (a b t : String) (c : Char) (ha : a.data.head? = some c)
    (ht : t.data.head? ≠ some c) : a ++ b ≠ t := by
  intro h
  apply ht
  rw [← h, String.data_append, List.head?_append, ha]
  rfl

/-- A message starting with an `m` is never the missing-required
message. -/
theorem some_ne_required (a b : String) (ha : a.data.head? = some 'm') :
    some (a ++ b) ≠ some "required but not set" := by
  simp only [ne_eq, Option.some.injEq]
  exact ne_of_head a b _ 'm' ha (by decide)

/-- Filtering to the entries where `f` fires does not change `filterMap
f`. -/
theorem filterMap_filter_isSome {α β : Type} (f : α → Option β) (l : List α) :
    (l.filter (fun x => (f x).isSome)).filterMap f = l.filterMap f := by
  induction l with
  | nil => rfl
  | cons x xs ih =>
    cases h : f x <;> simp [List.filter_cons, List.filterMap_cons, h, ih]

/-- When `f` fires on every entry, `filterMap f` preserves length. -/
theorem length_filterMap_of_isSome {α β : Type} (f : α → Option β)
    (l : List α) (h : ∀ x ∈ l, (f x).isSome) :
    (l.filterMap f).length = l.length := by
  induction l with
  | nil => rfl
  | cons x xs ih =>
    have hx := h x (by simp)
    cases hfx : f x
    · rw [hfx] at hx; simp at hx
    · simp only [List.filterMap_cons, hfx, List.length_cons]
      rw [ih (fun y hy => h y (by simp [hy]))]

/-- No coercion of a present raw value produces the missing-required
error message. -/
theorem coerceBase_error_ne_required (pf : Platform) (base raw key : String)
    (m : Bool) :
    (coerceBase pf base raw key m).error ≠ some "required but not set" := by
  intro h
  unfold coerceBase at h
  repeat' split at h
  all_goals first
    | exact Option.noConfusion h
    | exact absurd h (some_ne_required _ _ (by rfl))

/-- The field loop computes exactly the per-field views: the result map is
the in-order list of successful fields and the error list the in-order
list of rendered truthy errors. -/
theorem snapFields_eq (pf : Platform) (source : String → Option String)
    (pfx : String) (e m : Bool) (schema : List (String × EnvType)) :
    snapFields pf schema source pfx e m =
      (schema.filterMap (fieldValue pf source pfx e m),
       schema.filterMap (fieldError pf source pfx e m)) := by
  induction schema with
  | nil => rfl
  | cons kt rest ih =>
    obtain ⟨k, t⟩ := kt
    simp only [snapFields, ih, List.filterMap_cons]
    rcases h : (parse pf (source (pfx ++ k)) t k e m).error with _ | err
    · simp [fieldValue, fieldError, h]
    · by_cases he : err = ""
      · simp [fieldValue, fieldError, h, he]
      · simp [fieldValue, fieldError, h, he]

/-! ## Characterisation of the numeric-string grammar (for claim C4) -/

theorem decDigits_isSome (l : List Char) :
    (decDigits l).isSome = (!l.isEmpty && l.all Char.isDigit) := by
  by_cases h : (!l.isEmpty && l.all Char.isDigit) = true <;> simp [decDigits, h]

theorem hexDigitsVal_isSome (l : List Char) :
    (hexDigitsVal l).isSome = (!l.isEmpty && l.all isHexDigit) := by
  by_cases h : (!l.isEmpty && l.all isHexDigit) = true <;> simp [hexDigitsVal, h]

theorem octDigitsVal_isSome (l : List Char) :
    (octDigitsVal l).isSome =
      (!l.isEmpty && l.all (fun c => '0' ≤ c && c ≤ '7')) := by
  by_cases h : (!l.isEmpty && l.all (fun c => '0' ≤ c && c ≤ '7')) = true <;>
    simp [octDigitsVal, h]

theorem binDigitsVal_isSome (l : List Char) :
    (binDigitsVal l).isSome =
      (!l.isEmpty && l.all (fun c => c = '0' || c = '1')) := by
  by_cases h : (!l.isEmpty && l.all (fun c => c = '0' || c = '1')) = true <;>
    simp [binDigitsVal, h]

/-- The decimal-literal parser succeeds exactly on the strings the
decimal-literal recogniser accepts. -/
theorem decLit_isSome (l : List Char) : (decLit l).isSome = decBodyOk l := by
  unfold decLit decBodyOk
  rcases hme : splitAtFirstC (fun c => c = 'e' || c = 'E') l with ⟨mant, expPart⟩
  rcases hip : splitAtFirstC (fun c => c = '.') mant with ⟨ip, fpOpt⟩
  simp only [hme, hip]
  cases fpOpt with
  | none =>
    cases expPart with
    | none =>
      cases hd : decDigits ip <;> simp [hd, ← decDigits_isSome]
    | some ex =>
      cases hd : decDigits ip <;>
        cases hd2 : decDigits (stripSign ex).2 <;>
          simp [hd, hd2, ← decDigits_isSome]
  | some fp =>
    cases expPart with
    | none =>
      by_cases h1 : ip.isEmpty <;> by_cases h2 : fp.isEmpty <;>
        by_cases h3 : ip.all Char.isDigit <;> by_cases h4 : fp.all Char.isDigit <;>
        simp [h1, h2, h3, h4]
    | some ex =>
      cases hd2 : decDigits (stripSign ex).2 <;>
        by_cases h1 : ip.isEmpty <;> by_cases h2 : fp.isEmpty <;>
          by_cases h3 : ip.all Char.isDigit <;> by_cases h4 : fp.all Char.isDigit <;>
          simp [h1, h2, h3, h4, hd2, ← decDigits_isSome]

theorem decSigned_isSome (l : List Char) :
    (decSigned l).isSome = decSignedOk l := by
  unfold decSigned decSignedOk
  by_cases h : (stripSign l).2 = "Infinity".toList
  · simp [h]
  · have h2 : ¬ (stripSign l).2 = ['I', 'n', 'f', 'i', 'n', 'i', 't', 'y'] := h
    simp [h2, decLit_isSome]

/-- The `Number(string)` model succeeds exactly on the strings the
numeric-string recogniser accepts. -/
theorem jsNumber_isSome (s : String) :
    (jsNumber s).isSome = jsNumericAccept s := by
  unfold jsNumber jsNumericAccept
  by_cases h0 : jsTrim s = [] <;>
    by_cases h1 : (List.take 2 (jsTrim s) = ['0', 'x'] ∨
      List.take 2 (jsTrim s) = ['0', 'X']) <;>
    by_cases h2 : (List.take 2 (jsTrim s) = ['0', 'o'] ∨
      List.take 2 (jsTrim s) = ['0', 'O']) <;>
    by_cases h3 : (List.take 2 (jsTrim s) = ['0', 'b'] ∨
      List.take 2 (jsTrim s) = ['0', 'B']) <;>
    simp [h0, h1, h2, h3, decSigned_isSome]
  all_goals
    first
      | (cases hh : hexDigitsVal (List.drop 2 (jsTrim s)) <;>
          simp [hh, ← hexDigitsVal_isSome])
      | (cases hh : octDigitsVal (List.drop 2 (jsTrim s)) <;>
          simp [hh, ← octDigitsVal_isSome])
      | (cases hh : binDigitsVal (List.drop 2 (jsTrim s)) <;>
          simp [hh, ← binDigitsVal_isSome])

/-! ## Structural lemmas for the numeric grammar (claim C4) -/

theorem splitAtFirstC_eq_none {p : Char → Bool} {l a : List Char}
    (h : splitAtFirstC p l = (a, none)) : l = a ∧ ∀ c ∈ a, p c = false := by
  induction l generalizing a with
  | nil =>
    simp [splitAtFirstC] at h
    subst h
    exact ⟨rfl, by simp⟩
  | cons c rest ih =>
    by_cases hp : p c = true
    · simp [splitAtFirstC, hp] at h
    · rcases hr : splitAtFirstC p rest with ⟨a2, o⟩
      simp [splitAtFirstC, hp, hr] at h
      obtain ⟨ha, ho⟩ := h
      subst ho
      obtain ⟨hl, hall⟩ := ih hr
      subst ha
      refine ⟨by rw [hl], ?_⟩
      intro x hx
      rcases List.mem_cons.mp hx with hx1 | hx2
      · subst hx1
        exact Bool.not_eq_true _ ▸ hp
      · exact hall x hx2

theorem splitAtFirstC_eq_some {p : Char → Bool} {l a b : List Char}
    (h : splitAtFirstC p l = (a, some b)) :
    ∃ d, p d = true ∧ l = a ++ d :: b ∧ ∀ c ∈ a, p c = false := by
  induction l generalizing a with
  | nil => simp [splitAtFirstC] at h
  | cons c rest ih =>
    by_cases hp : p c = true
    · simp [splitAtFirstC, hp] at h
      obtain ⟨ha, hb⟩ := h
      subst ha; subst hb
      exact ⟨c, hp, rfl, by simp⟩
    · rcases hr : splitAtFirstC p rest with ⟨a2, o⟩
      simp [splitAtFirstC, hp, hr] at h
      obtain ⟨ha, ho⟩ := h
      subst ho
      subst ha
      obtain ⟨d, hd, hl, hall⟩ := ih hr
      refine ⟨d, hd, by rw [hl]; rfl, ?_⟩
      intro x hx
      rcases List.mem_cons.mp hx with hx1 | hx2
      · subst hx1
        exact Bool.not_eq_true _ ▸ hp
      · exact hall x hx2

theorem splitAtFirstC_all_false {p : Char → Bool} {l : List Char}
    (h : ∀ c ∈ l, p c = false) : splitAtFirstC p l = (l, none) := by
  induction l with
  | nil => rfl
  | cons c rest ih =>
    have hp : p c = false := h c (by simp)
    simp [splitAtFirstC, hp, ih (fun x hx => h x (by simp [hx]))]

theorem dropWhile_eq_self_of_all {p : Char → Bool} {l : List Char}
    (h : ∀ c ∈ l, p c = false) : l.dropWhile p = l := by
  cases l with
  | nil => rfl
  | cons c rest => simp [List.dropWhile_cons, h c (by simp)]

theorem jsTrim_of_no_ws {s : String}
    (h : ∀ c ∈ s.toList, isJsWs c = false) : jsTrim s = s.toList := by
  unfold jsTrim
  rw [dropWhile_eq_self_of_all h]
  rw [dropWhile_eq_self_of_all (by intro c hc; exact h c (List.mem_reverse.mp hc))]
  exact List.reverse_reverse _

theorem not_ws_of_digit_or_dot_or_minus {c : Char}
    (h : c.isDigit = true ∨ c = '.' ∨ c = '-') : isJsWs c = false := by
  cases hw : isJsWs c
  · rfl
  · exfalso
    have hmem : c ∈ jsWsChars := by
      unfold isJsWs at hw
      simpa using hw
    fin_cases hmem <;> exact absurd h (by decide)

theorem take2_shape {l : List Char} {a b : Char} (h : l.take 2 = [a, b]) :
    ∃ rest, l = a :: b :: rest := by
  match l, h with
  | x :: y :: r, h =>
    simp [List.take] at h
    exact ⟨r, by rw [h.1, h.2]⟩

theorem decLit_some_of_bodyOk {tl : List Char} (h : decBodyOk tl = true) :
    ∃ q : ℚ, decLit tl = some q := by
  have h2 := decLit_isSome tl
  rw [h] at h2
  exact Option.isSome_iff_exists.mp h2

theorem not_infinity_of_digits_dot {tl : List Char}
    (hchar : ∀ c ∈ tl, c.isDigit = true ∨ c = '.') :
    tl ≠ "Infinity".toList := by
  intro heq
  have hI : ('I' : Char) ∈ tl :=
    heq ▸ (by decide : ('I' : Char) ∈ "Infinity".toList)
  exact absurd (hchar 'I' hI) (by decide)

theorem decBodyOk_of_parts {tl ip : List Char} {fpOpt : Option (List Char)}
    (hsp : splitAtFirstC (fun c => c = '.') tl = (ip, fpOpt))
    (hip : ip ≠ [] ∧ ip.all Char.isDigit = true)
    (hfp : ∀ fp, fpOpt = some fp → fp ≠ [] ∧ fp.all Char.isDigit = true) :
    decBodyOk tl = true ∧ (∀ c ∈ tl, c.isDigit = true ∨ c = '.') ∧ tl ≠ [] := by
  have hchar : ∀ c ∈ tl, c.isDigit = true ∨ c = '.' := by
    cases fpOpt with
    | none =>
      obtain ⟨hl, _⟩ := splitAtFirstC_eq_none hsp
      intro c hc
      rw [hl] at hc
      exact Or.inl (List.all_eq_true.mp hip.2 c hc)
    | some fp =>
      obtain ⟨d, hd, hl, _⟩ := splitAtFirstC_eq_some hsp
      have hdd : d = '.' := by simpa using hd
      subst hdd
      intro c hc
      rw [hl] at hc
      rcases List.mem_append.mp hc with hc1 | hc2
      · exact Or.inl (List.all_eq_true.mp hip.2 c hc1)
      · rcases List.mem_cons.mp hc2 with hc3 | hc4
        · exact Or.inr hc3
        · exact Or.inl (List.all_eq_true.mp ((hfp fp rfl).2) c hc4)
  have htlne : tl ≠ [] := by
    cases fpOpt with
    | none =>
      obtain ⟨hl, _⟩ := splitAtFirstC_eq_none hsp
      rw [hl]
      exact hip.1
    | some fp =>
      obtain ⟨d, _, hl, _⟩ := splitAtFirstC_eq_some hsp
      rw [hl]
      cases hip2 : ip <;> simp
  have hnoE : ∀ c ∈ tl, (decide (c = 'e') || decide (c = 'E')) = false := by
    intro c hc
    rcases hchar c hc with hd | hd
    · simp only [Bool.or_eq_false_iff, decide_eq_false_iff_not]
      constructor
      · intro he; subst he; exact absurd hd (by decide)
      · intro he; subst he; exact absurd hd (by decide)
    · subst hd; decide
  have hbody : decBodyOk tl = true := by
    unfold decBodyOk
    rw [splitAtFirstC_all_false hnoE]
    simp only []
    rw [hsp]
    cases fpOpt with
    | none => simp [hip.1, hip.2]
    | some fp =>
      have hf := hfp fp rfl
      simp [hip.1, hip.2, hf.1, hf.2]
  exact ⟨hbody, hchar, htlne⟩

theorem ne_nil_of_bnot_isEmpty {l : List Char} (h : (!l.isEmpty) = true) :
    l ≠ [] := by
  cases l <;> simp_all

theorem stripSign_no_sign {l : List Char}
    (h1 : l.head? ≠ some '+') (h2 : l.head? ≠ some '-') :
    stripSign l = (false, l) := by
  unfold stripSign
  rw [if_neg h1, if_neg h2]

theorem jsNumber_eq_decSigned {s : String} {t : List Char} (ht : jsTrim s = t)
    (h0 : t.isEmpty = false)
    (h1 : ¬(t.take 2 = ['0', 'x'] ∨ t.take 2 = ['0', 'X']))
    (h2 : ¬(t.take 2 = ['0', 'o'] ∨ t.take 2 = ['0', 'O']))
    (h3 : ¬(t.take 2 = ['0', 'b'] ∨ t.take 2 = ['0', 'B'])) :
    jsNumber s = decSigned t := by
  unfold jsNumber
  rw [ht]
  simp [h0, h1, h2, h3]

theorem decSigned_some_fin {t tl : List Char} {neg : Bool}
    (hss : stripSign t = (neg, tl)) (hinf : tl ≠ "Infinity".toList)
    {q : ℚ} (hq : decLit tl = some q) :
    decSigned t = some (saturate (if neg then -q else q)) := by
  have hinf2 : tl ≠ ['I', 'n', 'f', 'i', 'n', 'i', 't', 'y'] := hinf
  unfold decSigned
  rw [hss]
  simp [hinf2, hq]

/-- Every "integer or decimal with optional leading minus" literal is
accepted by the `Number(string)` model (the converted value saturates to
Infinity at the float64 overflow threshold, so acceptance is all that
holds for every such literal). -/
theorem simple_lit_accepted (s : String) (h : simpleNumericLit s = true) :
    (jsNumber s).isSome = true := by
  unfold simpleNumericLit at h
  by_cases hneg : s.toList.head? = some '-'
  case pos =>
    obtain ⟨tl, hl⟩ : ∃ tl, s.toList = '-' :: tl := by
      cases hsl : s.toList with
      | nil => rw [hsl] at hneg; exact absurd hneg (by simp)
      | cons c rest =>
        rw [hsl] at hneg
        simp only [List.head?_cons, Option.some.injEq] at hneg
        exact ⟨rest, by rw [hneg]⟩
    rw [if_pos hneg, hl] at h
    simp only [List.drop_succ_cons, List.drop_zero] at h
    rcases hsp : splitAtFirstC (fun c => c = '.') tl with ⟨ip, fpOpt⟩
    rw [hsp] at h
    have hparts : decBodyOk tl = true ∧
        (∀ c ∈ tl, c.isDigit = true ∨ c = '.') ∧ tl ≠ [] := by
      cases fpOpt with
      | none =>
        have h2 : (!ip.isEmpty && ip.all Char.isDigit) = true := h
        simp only [Bool.and_eq_true] at h2
        exact decBodyOk_of_parts hsp ⟨ne_nil_of_bnot_isEmpty h2.1, h2.2⟩ (by simp)
      | some fp =>
        have h2 : (!ip.isEmpty && ip.all Char.isDigit &&
            !fp.isEmpty && fp.all Char.isDigit) = true := h
        simp only [Bool.and_eq_true] at h2
        exact decBodyOk_of_parts hsp
          ⟨ne_nil_of_bnot_isEmpty h2.1.1.1, h2.1.1.2⟩
          (by intro fp2 hfp2; cases hfp2
              exact ⟨ne_nil_of_bnot_isEmpty h2.1.2, h2.2⟩)
    obtain ⟨hbody, hchar, htlne⟩ := hparts
    have htrim : jsTrim s = '-' :: tl := by
      rw [jsTrim_of_no_ws ?_, hl]
      intro c hc
      rw [hl] at hc
      rcases List.mem_cons.mp hc with hc1 | hc2
      · subst hc1; rfl
      · exact not_ws_of_digit_or_dot_or_minus (Or.imp_right Or.inl (hchar c hc2))
    obtain ⟨q, hq⟩ := decLit_some_of_bodyOk hbody
    have e0 : (('-' :: tl).isEmpty) = false := rfl
    have e1 : ¬(('-' :: tl).take 2 = ['0', 'x'] ∨ ('-' :: tl).take 2 = ['0', 'X']) := by
      simp [List.take]
    have e2 : ¬(('-' :: tl).take 2 = ['0', 'o'] ∨ ('-' :: tl).take 2 = ['0', 'O']) := by
      simp [List.take]
    have e3 : ¬(('-' :: tl).take 2 = ['0', 'b'] ∨ ('-' :: tl).take 2 = ['0', 'B']) := by
      simp [List.take]
    have hss : stripSign ('-' :: tl) = (true, tl) := rfl
    rw [jsNumber_eq_decSigned htrim e0 e1 e2 e3,
      decSigned_some_fin hss (not_infinity_of_digits_dot hchar) hq]
    rfl
  case neg =>
    rw [if_neg hneg] at h
    rcases hsp : splitAtFirstC (fun c => c = '.') s.toList with ⟨ip, fpOpt⟩
    simp only [hsp] at h
    have hparts : decBodyOk s.toList = true ∧
        (∀ c ∈ s.toList, c.isDigit = true ∨ c = '.') ∧ s.toList ≠ [] := by
      cases fpOpt with
      | none =>
        have h2 : (!ip.isEmpty && ip.all Char.isDigit) = true := h
        simp only [Bool.and_eq_true] at h2
        exact decBodyOk_of_parts hsp ⟨ne_nil_of_bnot_isEmpty h2.1, h2.2⟩ (by simp)
      | some fp =>
        have h2 : (!ip.isEmpty && ip.all Char.isDigit &&
            !fp.isEmpty && fp.all Char.isDigit) = true := h
        simp only [Bool.and_eq_true] at h2
        exact decBodyOk_of_parts hsp
          ⟨ne_nil_of_bnot_isEmpty h2.1.1.1, h2.1.1.2⟩
          (by intro fp2 hfp2; cases hfp2
              exact ⟨ne_nil_of_bnot_isEmpty h2.1.2, h2.2⟩)
    obtain ⟨hbody, hchar, htlne⟩ := hparts
    have htrim : jsTrim s = s.toList := by
      apply jsTrim_of_no_ws
      intro c hc
      exact not_ws_of_digit_or_dot_or_minus (Or.imp_right Or.inl (hchar c hc))
    obtain ⟨q, hq⟩ := decLit_some_of_bodyOk hbody
    have e0 : s.toList.isEmpty = false := by
      cases hsl : s.toList with
      | nil => exact absurd hsl htlne
      | cons c rest => rfl
    have hmem2 : ∀ c2, s.toList.take 2 = ['0', c2] → c2 ∈ s.toList := by
      intro c2 ht
      obtain ⟨r, hr⟩ := take2_shape ht
      rw [hr]
      simp
    have e1 : ¬(s.toList.take 2 = ['0', 'x'] ∨ s.toList.take 2 = ['0', 'X']) := by
      rintro (ht | ht) <;>
        exact absurd (hchar _ (hmem2 _ ht)) (by decide)
    have e2 : ¬(s.toList.take 2 = ['0', 'o'] ∨ s.toList.take 2 = ['0', 'O']) := by
      rintro (ht | ht) <;>
        exact absurd (hchar _ (hmem2 _ ht)) (by decide)
    have e3 : ¬(s.toList.take 2 = ['0', 'b'] ∨ s.toList.take 2 = ['0', 'B']) := by
      rintro (ht | ht) <;>
        exact absurd (hchar _ (hmem2 _ ht)) (by decide)
    have hplus : s.toList.head? ≠ some '+' := by
      intro hcc
      obtain ⟨tl2, hl2⟩ : ∃ tl2, s.toList = '+' :: tl2 := by
        cases hsl : s.toList with
        | nil => rw [hsl] at hcc; exact absurd hcc (by simp)
        | cons c rest =>
          rw [hsl] at hcc
          simp only [List.head?_cons, Option.some.injEq] at hcc
          exact ⟨rest, by rw [hcc]⟩
      have hmem : ('+' : Char) ∈ s.toList := by rw [hl2]; simp
      exact absurd (hchar '+' hmem) (by decide)
    have hminus : s.toList.head? ≠ some '-' := hneg
    have hss := stripSign_no_sign hplus hminus
    rw [jsNumber_eq_decSigned htrim e0 e1 e2 e3,
      decSigned_some_fin hss (not_infinity_of_digits_dot hchar) hq]
    rfl

/-! ## Claim theorems -/

/-- C8: for every textual descriptor (hence every built-in base kind),
with `emptyAsUndefined = true` (the default), a source value that is the
empty string produces exactly the same per-field outcome (value and
error) as an absent key. -/
theorem c8_empty_behaves_as_absent (pf : Platform) (t key : String) (m : Bool) :
    parse pf (some "") (.desc t) key true m = parse pf none (.desc t) key true m := by
  simp only [parse, parseDesc]
  cases h : (extractType t).defaultValue <;> simp [h]

/-- C6: a descriptor's default literal undergoes exactly the same
coercion as a source-supplied raw value (an absent value with default `d`
behaves exactly like source value `d` under the same descriptor), and a
present, non-conditionally-empty source value is coerced directly — the
default is ignored. -/
theorem c6_default_substitution (pf : Platform) (t key : String) (e m : Bool)
    (d v : String) :
    ((extractType t).defaultValue = some d →
      parse pf none (.desc t) key e m = parse pf (some d) (.desc t) key e m) ∧
    ((e = true → v ≠ "") →
      parse pf (some v) (.desc t) key e m =
        coerceBase pf (extractType t).base v key m) := by
  constructor
  · intro h
    simp [parse, parseDesc, h]
  · intro hv
    cases e with
    | false => cases hd : (extractType t).defaultValue <;> simp [parse, parseDesc, hd]
    | true =>
      have hv2 : v ≠ "" := hv rfl
      cases hd : (extractType t).defaultValue <;> simp [parse, parseDesc, hd, hv2]

/-- C6 witness: `"port=3000"` has default `"3000"`, substitution of the
default equals parsing it as a source value, and source `"8080"` wins
over the default, yielding the number 8080. -/
theorem c6_witness :
    (extractType "port=3000").defaultValue = some "3000" ∧
    parse plainPlatform none (.desc "port=3000") "PORT" true false =
      parse plainPlatform (some "3000") (.desc "port=3000") "PORT" true false ∧
    parse plainPlatform (some "8080") (.desc "port=3000") "PORT" true false =
      ⟨.num (.fin 8080), none⟩ := by
  refine ⟨rfl,
    (c6_default_substitution plainPlatform "port=3000" "PORT" true false "3000" "8080").1 rfl,
    ?_⟩
  have h := (c6_default_substitution plainPlatform "port=3000" "PORT" true false
      "3000" "8080").2 (fun _ => by decide)
  rw [h]
  rfl

/-- C2 counterexample: the descriptor `"string="` carries the default
literal `""`; with `emptyAsUndefined = true` (the default) and the key
absent, the field errors "required but not set" even though it has a
default. -/
theorem c2_counterexample :
    (extractType "string=").defaultValue = some "" ∧
    (parse plainPlatform none (.desc "string=") "HOME" true false).error =
      some "required but not set" := ⟨rfl, rfl⟩

/-- C2 (amended): when the default literal is non-empty or
`emptyAsUndefined` is off, a field whose source value is absent (or
conditionally empty) resolves by coercing the default literal, and never
errors "required but not set". -/
theorem c2_default_applies (pf : Platform) (t key : String) (e m : Bool)
    (d : String) (v : Option String)
    (hd : (extractType t).defaultValue = some d)
    (hne : e = true → d ≠ "")
    (hv : v = none ∨ (e = true ∧ v = some "")) :
    parse pf v (.desc t) key e m = coerceBase pf (extractType t).base d key m ∧
    (parse pf v (.desc t) key e m).error ≠ some "required but not set" := by
  have heq : parse pf v (.desc t) key e m =
      coerceBase pf (extractType t).base d key m := by
    rcases hv with h | ⟨he, h⟩
    · subst h
      cases e with
      | false => simp [parse, parseDesc, hd]
      | true => simp [parse, parseDesc, hd, hne rfl]
    · subst h
      subst he
      simp [parse, parseDesc, hd, hne rfl]
  rw [heq]
  exact ⟨rfl, coerceBase_error_ne_required pf _ d key m⟩

/-- C2 witness: `"port=3000"` with an absent source value coerces the
default and produces no missing-required error. -/
theorem c2_witness :
    (extractType "port=3000").defaultValue = some "3000" ∧
    parse plainPlatform none (.desc "port=3000") "PORT" true false =
      coerceBase plainPlatform "port" "3000" "PORT" false ∧
    (parse plainPlatform none (.desc "port=3000") "PORT" true false).error ≠
      some "required but not set" := by
  have h := c2_default_applies plainPlatform "port=3000" "PORT" true false
    "3000" none rfl (fun _ => by decide) (Or.inl rfl)
  exact ⟨rfl, h.1, h.2⟩

/-- C7: an enum field accepts a present value exactly when it is
(case-sensitively) equal to a member of the allowed list; a present
non-member fails with a message listing the allowed values; an absent
value (or empty value under `emptyAsUndefined`) always fails with a
message listing the allowed values. -/
theorem c7_enum_matcher (pf : Platform) (allowed : List String) (key : String)
    (e m : Bool) (v : String) (hnil : allowed ≠ []) :
    (parse pf none (.enum allowed) key e m =
      ⟨.undef, some ("required, must be one of: " ++
        String.intercalate ", " allowed)⟩) ∧
    (e = true → parse pf (some "") (.enum allowed) key e m =
      ⟨.undef, some ("required, must be one of: " ++
        String.intercalate ", " allowed)⟩) ∧
    ((e = true → v ≠ "") →
      (allowed.contains v = true →
        parse pf (some v) (.enum allowed) key e m = ⟨.str v, none⟩) ∧
      (allowed.contains v = false →
        parse pf (some v) (.enum allowed) key e m =
          ⟨.undef, some ("must be one of: " ++ String.intercalate ", " allowed ++
            ", got " ++ mask v key m)⟩)) := by
  refine ⟨rfl, fun he => by subst he; rfl, fun hv => ⟨fun hc => ?_, fun hc => ?_⟩⟩
  · have hm : v ∈ allowed := by simpa using hc
    cases e with
    | false => simp [parse, hm]
    | true => simp [parse, hm, hv rfl]
  · have hm : v ∉ allowed := by simpa using hc
    cases e with
    | false => simp [parse, hm]
    | true => simp [parse, hm, hv rfl]

/-- C7 witness: the enum behaviours at a concrete allowed list. -/
theorem c7_witness :
    (parse plainPlatform none (.enum ["development", "production"]) "NODE_ENV"
        true false).error =
      some "required, must be one of: development, production" ∧
    parse plainPlatform (some "production") (.enum ["development", "production"])
        "NODE_ENV" true false = ⟨.str "production", none⟩ ∧
    (parse plainPlatform (some "staging") (.enum ["development", "production"])
        "NODE_ENV" true false).error =
      some "must be one of: development, production, got \"staging\"" := by
  have h := c7_enum_matcher plainPlatform ["development", "production"] "NODE_ENV"
    true false "production" (by simp)
  have h2 := c7_enum_matcher plainPlatform ["development", "production"] "NODE_ENV"
    true false "staging" (by simp)
  refine ⟨by rw [h.1]; rfl, ?_, ?_⟩
  · exact (h.2.2 (fun _ => by decide)).1 (by decide)
  · rw [(h2.2.2 (fun _ => by decide)).2 (by decide)]
    rfl

/-- C10: a `makeValidator`-built validator (hence also `regex`) never
invokes the caller-supplied function when the raw value is `undefined` or
the empty string, regardless of `emptyAsUndefined`: the outcome is
independent of the function, and is the missing-required error when
`required` and `undefined` with no error otherwise. -/
theorem c10_custom_empty_is_absent (pf : Platform)
    (fn fn2 : String → Except String Value) (req : Bool)
    (errO : Option String) (key : String) (e e2 m m2 : Bool)
    (v : Option String) (hv : v = none ∨ v = some "") :
    parse pf v (.custom (makeValidator fn req errO)) key e m =
      parse pf v (.custom (makeValidator fn2 req errO)) key e2 m2 ∧
    (req = true →
      parse pf v (.custom (makeValidator fn req errO)) key e m =
        ⟨.undef, some "required but not set"⟩) ∧
    (req = false →
      parse pf v (.custom (makeValidator fn req errO)) key e m =
        ⟨.undef, none⟩) := by
  rcases hv with h | h <;> subst h <;>
    exact ⟨rfl, fun hr => by subst hr; rfl, fun hr => by subst hr; rfl⟩

/-- C10 witness: with `emptyAsUndefined = false` and raw value `""`, a
required custom validator still reports missing-required, and a failing
custom function gives the same outcome as a succeeding one (it is never
called). -/
theorem c10_witness :
    (some "" = none ∨ (some "" : Option String) = some "") ∧
    parse plainPlatform (some "")
        (.custom (makeValidator (fun _ => .error "boom") true none))
        "CODE" false false =
      parse plainPlatform (some "")
        (.custom (makeValidator (fun s => .ok (.str s)) true none))
        "CODE" true false ∧
    parse plainPlatform (some "")
        (.custom (makeValidator (fun _ => .error "boom") true none))
        "CODE" false false = ⟨.undef, some "required but not set"⟩ := by
  have h := c10_custom_empty_is_absent plainPlatform (fun _ => .error "boom")
    (fun s => .ok (.str s)) true none "CODE" false true false false
    (some "") (Or.inr rfl)
  exact ⟨Or.inr rfl, h.1, h.2.1 rfl⟩

/-- C1: validation never short-circuits: the collected error list holds
exactly one rendered entry per failing field, in schema declaration
order; in particular, when exactly two fields fail —
wherever they sit in the schema — the error list has exactly those two
entries, under every error policy. -/
theorem c1_two_failures_two_errors (pf : Platform)
    (schema : List (String × EnvType)) (source : String → Option String)
    (pol : ErrPolicy) (pfx : String) (e m : Bool)
    (h : (schema.filter
      (fun kt => (fieldError pf source pfx e m kt).isSome)).length = 2) :
    (snapRun pf schema source ⟨pfx, pol, e, m⟩).errors.length = 2 ∧
    (snapRun pf schema source ⟨pfx, pol, e, m⟩).errors =
      (schema.filter
        (fun kt => (fieldError pf source pfx e m kt).isSome)).filterMap
        (fieldError pf source pfx e m) := by
  have herr : (snapRun pf schema source ⟨pfx, pol, e, m⟩).errors =
      schema.filterMap (fieldError pf source pfx e m) := by
    simp [snapRun, snapFields_eq]
  constructor
  · rw [herr, ← filterMap_filter_isSome]
    rw [length_filterMap_of_isSome]
    · exact h
    · intro x hx
      exact (List.mem_filter.mp hx).2
  · rw [herr, filterMap_filter_isSome]

/-- C1 witness: a schema with a failing first field, a passing middle
field and a failing last field yields exactly the two expected error
entries, in order. -/
theorem c1_witness :
    (([("A", EnvType.desc "string!"), ("B", EnvType.desc "string"),
        ("C", EnvType.enum ["x"])].filter
      (fun kt =>
        (fieldError plainPlatform (fun _ => none) "" true false kt).isSome)).length
      = 2) ∧
    (snapRun plainPlatform
      [("A", EnvType.desc "string!"), ("B", EnvType.desc "string"),
       ("C", EnvType.enum ["x"])]
      (fun _ => none) ⟨"", .throwPol, true, false⟩).errors =
      ["A: required but not set", "C: required, must be one of: x"] := by
  have hh : (([("A", EnvType.desc "string!"), ("B", EnvType.desc "string"),
      ("C", EnvType.enum ["x"])].filter
      (fun kt =>
        (fieldError plainPlatform (fun _ => none) "" true false kt).isSome)).length
      = 2) := by decide
  refine ⟨hh, ?_⟩
  have h := c1_two_failures_two_errors plainPlatform
    [("A", EnvType.desc "string!"), ("B", EnvType.desc "string"),
     ("C", EnvType.enum ["x"])]
    (fun _ => none) .throwPol "" true false hh
  rw [h.2]
  rfl

/-- C3: with a nonempty error list the three onError policies are
mutually exclusive and behave as documented: the default policy raises
the single aggregated message (one field error per line), the log policy
emits the same message to the sink without raising and returns the map
holding only the successfully validated fields, and a callback policy
yields exactly one callback invocation carrying the full ordered error
list while also returning the partial map. -/
theorem c3_onerror_policies (pf : Platform)
    (schema : List (String × EnvType)) (source : String → Option String)
    (pfx : String) (e m : Bool)
    (h : (snapFields pf schema source pfx e m).2 ≠ []) :
    ((snapRun pf schema source ⟨pfx, .throwPol, e, m⟩).effect =
      .thrown ("snapenv validation failed:\n  " ++
        String.intercalate "\n  " (snapFields pf schema source pfx e m).2)) ∧
    ((snapRun pf schema source ⟨pfx, .logPol, e, m⟩).effect =
      .logged ("snapenv validation failed:\n  " ++
        String.intercalate "\n  " (snapFields pf schema source pfx e m).2)) ∧
    ((snapRun pf schema source ⟨pfx, .cbPol, e, m⟩).effect =
      .callbacked (snapFields pf schema source pfx e m).2) ∧
    ((snapRun pf schema source ⟨pfx, .logPol, e, m⟩).result =
      schema.filterMap (fieldValue pf source pfx e m)) ∧
    ((snapRun pf schema source ⟨pfx, .cbPol, e, m⟩).result =
      schema.filterMap (fieldValue pf source pfx e m)) := by
  have hne : (snapFields pf schema source pfx e m).2.isEmpty = false := by
    simpa [List.isEmpty_iff] using h
  refine ⟨?_, ?_, ?_, ?_, ?_⟩
  · simp [snapRun, aggMessage, hne]
  · simp [snapRun, aggMessage, hne]
  · simp [snapRun, aggMessage, hne]
  · simp [snapRun, snapFields_eq]
  · simp [snapRun, snapFields_eq]

/-- C3 witness: one failing field under each policy — thrown message,
logged message, and callback list. -/
theorem c3_witness :
    (snapFields plainPlatform [("A", EnvType.desc "string!")] (fun _ => none)
      "" true false).2 ≠ [] ∧
    (snapRun plainPlatform [("A", EnvType.desc "string!")] (fun _ => none)
      ⟨"", .throwPol, true, false⟩).effect =
      .thrown "snapenv validation failed:\n  A: required but not set" ∧
    (snapRun plainPlatform [("A", EnvType.desc "string!")] (fun _ => none)
      ⟨"", .logPol, true, false⟩).effect =
      .logged "snapenv validation failed:\n  A: required but not set" ∧
    (snapRun plainPlatform [("A", EnvType.desc "string!")] (fun _ => none)
      ⟨"", .cbPol, true, false⟩).effect =
      .callbacked ["A: required but not set"] := by
  have hval : (snapFields plainPlatform [("A", EnvType.desc "string!")]
      (fun _ => none) "" true false).2 = ["A: required but not set"] := rfl
  have hne : (snapFields plainPlatform [("A", EnvType.desc "string!")]
      (fun _ => none) "" true false).2 ≠ [] := by
    rw [hval]; simp
  have h := c3_onerror_policies plainPlatform [("A", EnvType.desc "string!")]
    (fun _ => none) "" true false hne
  refine ⟨hne, ?_, ?_, ?_⟩
  · rw [h.1]; rfl
  · rw [h.2.1]; rfl
  · rw [h.2.2.1]; rfl

/-- C5: `validate` never raises — the snap call it wraps runs under the
callback policy, whose effect is never `thrown` — and it returns the
failure variant carrying exactly the ordered error list when at least one
field errored, and the success variant carrying the value map when none
did. -/
theorem c5_validate_result (pf : Platform) (schema : List (String × EnvType))
    (source : String → Option String) (pfx : String) (e m : Bool) :
    (∀ msg, (snapRun pf schema source ⟨pfx, .cbPol, e, m⟩).effect ≠
      .thrown msg) ∧
    ((snapRun pf schema source ⟨pfx, .cbPol, e, m⟩).errors = [] →
      validateRun pf schema source pfx e m =
        .success (snapRun pf schema source ⟨pfx, .cbPol, e, m⟩).result) ∧
    ((snapRun pf schema source ⟨pfx, .cbPol, e, m⟩).errors ≠ [] →
      validateRun pf schema source pfx e m =
        .failure (snapRun pf schema source ⟨pfx, .cbPol, e, m⟩).errors) := by
  by_cases h : (snapFields pf schema source pfx e m).2.isEmpty
  · refine ⟨fun msg => ?_, fun _ => ?_, fun hne => ?_⟩
    · simp [snapRun, h]
    · simp [validateRun, snapRun, h]
    · exact absurd (List.isEmpty_iff.mp h) hne
  · have h2 : (snapFields pf schema source pfx e m).2.isEmpty = false := by
      simpa using h
    refine ⟨fun msg => ?_, fun hemp => ?_, fun _ => ?_⟩
    · simp [snapRun, h2]
    · exact absurd (List.isEmpty_iff.mpr hemp) h
    · simp [validateRun, snapRun, h2]

/-- C5 witness: a failing schema makes `validate` return the failure
variant with the ordered error list (and no raise). -/
theorem c5_witness :
    (snapRun plainPlatform [("PORT", EnvType.desc "port!")] (fun _ => none)
      ⟨"", .cbPol, true, false⟩).errors ≠ [] ∧
    validateRun plainPlatform [("PORT", EnvType.desc "port!")]
      (fun _ => none) "" true false =
      .failure ["PORT: required but not set"] := by
  have hval : (snapRun plainPlatform [("PORT", EnvType.desc "port!")]
      (fun _ => none) ⟨"", .cbPol, true, false⟩).errors =
      ["PORT: required but not set"] := rfl
  have hne : (snapRun plainPlatform [("PORT", EnvType.desc "port!")]
      (fun _ => none) ⟨"", .cbPol, true, false⟩).errors ≠ [] := by
    rw [hval]; simp
  have h := (c5_validate_result plainPlatform [("PORT", EnvType.desc "port!")]
    (fun _ => none) "" true false).2.2 hne
  rw [h, hval]
  exact ⟨hne, rfl⟩

/-- C9 counterexample: with masking enabled, the field name `API_KEY`
matches the secret pattern and the quoted raw value is replaced by the
`[MASKED]` marker — yet the error message still contains the literal raw
source value `"o"` (inside the template word "got"), so the claim's "does
not contain the raw source value" is false as stated. -/
theorem c9_counterexample :
    secretMatch "API_KEY" = true ∧
    (coerceBase plainPlatform "number" "o" "API_KEY" true).error =
      some "must be a number, got \"[MASKED]\"" ∧
    containsSub "must be a number, got \"[MASKED]\"" "o" = true :=
  ⟨by decide, rfl, by decide⟩

/-- C9 (amended): with masking enabled, a field whose (unprefixed) name
matches the secret pattern has its quoted raw value replaced by the fixed
quoted `[MASKED]` marker in error messages (so the quoted raw value never
appears, though characters of a short raw value may coincide with the
fixed template text); a non-matching field name embeds its raw value
quoted as-is; and the pattern is matched against the field name, not the
prefixed effective key. -/
theorem c9_masking (pf : Platform) (v k pfx w : String)
    (hw : jsNumber w = none) :
    (secretMatch k = true → mask v k true = "\"[MASKED]\"") ∧
    (secretMatch k = false → mask v k true = "\"" ++ v ++ "\"") ∧
    ((snapRun pf [(k, EnvType.desc "number")]
        (fun s => if s = pfx ++ k then some w else none)
        ⟨pfx, .throwPol, true, true⟩).errors =
      [pfx ++ k ++ ": " ++ ("must be a number, got " ++ mask w k true)]) := by
  have hw0 : w ≠ "" := by
    intro h0
    rw [h0] at hw
    exact Option.noConfusion hw
  refine ⟨fun hs => by simp [mask, hs], fun hs => by simp [mask, hs], ?_⟩
  have hex : extractType "number" = ⟨"number", false, none⟩ := rfl
  have hbk : baseKindOf "number" = .numberK := rfl
  have hp : parse pf (some w) (.desc "number") k true true =
      ⟨.undef, some ("must be a number, got " ++ mask w k true)⟩ := by
    simp [parse, parseDesc, hex, hw0, coerceBase, hbk, hw]
  have hmsg : ("must be a number, got " ++ mask w k true) ≠ "" :=
    ne_of_head _ _ _ 'm' rfl (by decide)
  simp [snapRun, snapFields, hp, hmsg]

/-- C9 witness: concrete secret and non-secret field names under masking,
and a secret field name behind a non-secret prefix still masked. -/
theorem c9_witness :
    jsNumber "oops" = none ∧
    mask "oops" "API_KEY" true = "\"[MASKED]\"" ∧
    mask "oops" "PORT" true = "\"oops\"" ∧
    (snapRun plainPlatform [("API_KEY", EnvType.desc "number")]
        (fun s => if s = "PLAIN_" ++ "API_KEY" then some "oops" else none)
        ⟨"PLAIN_", .throwPol, true, true⟩).errors =
      ["PLAIN_API_KEY: must be a number, got \"[MASKED]\""] := by
  have h := c9_masking plainPlatform "oops" "API_KEY" "PLAIN_" "oops" rfl
  have h2 := c9_masking plainPlatform "oops" "PORT" "PLAIN_" "oops" rfl
  refine ⟨rfl, h.1 (by decide), h2.2.1 (by decide), ?_⟩
  rw [h.2.2]
  rfl

/-- C4 counterexample: the string `"Infinity"` is not an integer-or-decimal
literal (and does not denote a finite number), yet the `number` coercer
accepts it, yielding the non-finite value — so "fails with a descriptive
error on every other string" is false as stated. -/
theorem c4_counterexample :
    simpleNumericLit "Infinity" = false ∧
    coerceBase plainPlatform "number" "Infinity" "NUM" false =
      ⟨.num .inf, none⟩ :=
  ⟨by decide, rfl⟩

/-- C4 (amended): the `number` coercer succeeds exactly on the strings
accepted by the ECMAScript numeric-string grammar — whitespace-trimmed
empty strings, optionally signed decimal literals with optional fraction
and exponent, signed `Infinity`, and unsigned hex/octal/binary literals —
a proper superset of the claim's "integer or decimal with optional
leading minus", every one of which is accepted; the returned value is
the converted number, which is non-finite not only for the `Infinity`
spellings but also whenever the literal's magnitude reaches the float64
overflow threshold; on rejection the coercer fails with the descriptive
error message embedding the (possibly masked) raw text. -/
theorem c4_number_coercer (pf : Platform) (raw key : String) (m : Bool) :
    ((jsNumber raw).isSome = jsNumericAccept raw) ∧
    (simpleNumericLit raw = true → (jsNumber raw).isSome = true) ∧
    (∀ n, jsNumber raw = some n →
      coerceBase pf "number" raw key m = ⟨.num n, none⟩) ∧
    (jsNumber raw = none →
      coerceBase pf "number" raw key m =
        ⟨.undef, some ("must be a number, got " ++ mask raw key m)⟩) := by
  have hbk : baseKindOf "number" = .numberK := rfl
  refine ⟨jsNumber_isSome raw, simple_lit_accepted raw, fun n hn => ?_, fun hn => ?_⟩
  · unfold coerceBase
    rw [hbk, hn]
  · unfold coerceBase
    rw [hbk, hn]

/-- C4 witness: `"125"` is a plain integer literal, accepted with the
(in-range, hence finite) value 125; `"abc"` is rejected with the
descriptive message. -/
theorem c4_witness :
    simpleNumericLit "125" = true ∧
    (jsNumber "125").isSome = true ∧
    coerceBase plainPlatform "number" "125" "NUM" false =
      ⟨.num (.fin 125), none⟩ ∧
    jsNumber "abc" = none ∧
    coerceBase plainPlatform "number" "abc" "NUM" false =
      ⟨.undef, some "must be a number, got \"abc\""⟩ := by
  have h := c4_number_coercer plainPlatform "125" "NUM" false
  have h2 := c4_number_coercer plainPlatform "abc" "NUM" false
  refine ⟨by decide, h.2.1 (by decide), h.2.2.1 (.fin 125) ?_, rfl, ?_⟩
  · rfl
  · rw [h2.2.2.2 rfl]
    rfl

end Snapenv
